import Mathlib

/-!
Verification development for the LB-Manager virtualized table engine.

The definitions below are a shallow embedding of the Python sources:
  * `src/models/virtual_data_model.py` (class `VirtualDataModel`),
  * `src/controllers/table_controller.py` (class `TableController`),
  * `src/views/virtual_grid_view.py` (class `VirtualGridView`),
  * `src/views/widget_pool.py` (class `WidgetPool`).
Python values flowing through the model are modelled by `Value`
(strings, ints and `None` are the only shapes these code paths produce);
machine-level concerns (Qt signals, repaints, timers, print statements)
carry no data-model state and are omitted.  The regular-expression
engine used by text filters is kept abstract: functions that may compile
a pattern take a `compile` parameter returning `Option` of a matcher,
`none` standing for `re.error`.
-/

/-- Python runtime values appearing in the table engine's data paths. -/
inductive Value where
  | vStr (s : String)
  | vInt (n : Int)
  | vNone
deriving DecidableEq, Repr

/-- Python `str(value)` for the values we model (`str(None) = "None"`). -/
def pyStr : Value → String
  | .vStr s => s
  | .vInt n => toString n
  | .vNone => "None"

/-- Python truthiness test (`if value:`) for the values we model. -/
def pyTruthy : Value → Bool
  | .vStr s => s ≠ ""
  | .vInt n => n ≠ 0
  | .vNone => false

/-- ASCII lowercasing of one character (the data this program handles is
ASCII; Python `str.lower` agrees on it). -/
def asciiLower (c : Char) : Char :=
  if 'A' ≤ c ∧ c ≤ 'Z' then Char.ofNat (c.toNat + 32) else c

/-- ASCII uppercasing of one character. -/
def asciiUpper (c : Char) : Char :=
  if 'a' ≤ c ∧ c ≤ 'z' then Char.ofNat (c.toNat - 32) else c

/-- Python `s.lower()` (ASCII range). -/
def sLower (s : String) : String := String.mk (s.toList.map asciiLower)

/-- Python `s.upper()` (ASCII range). -/
def sUpper (s : String) : String := String.mk (s.toList.map asciiUpper)

/-- Python whitespace for `str.strip()`. -/
def pySpace (c : Char) : Bool :=
  c = ' ' ∨ c = '\t' ∨ c = '\n' ∨ c = '\r' ∨ c = '\x0b' ∨ c = '\x0c'

/-- Python `s.strip()`. -/
def pyStrip (s : String) : String :=
  String.mk (((s.toList.dropWhile pySpace).reverse.dropWhile pySpace).reverse)

/-- Python `s.split(',')` (list of chunks between commas, empties kept). -/
def splitCommaList (cs : List Char) : List (List Char) :=
  cs.foldr
    (fun c acc =>
      match acc with
      | [] => if c = ',' then [[], []] else [[c]]
      | cur :: rest => if c = ',' then [] :: cur :: rest else (c :: cur) :: rest)
    [[]]

/-- Python `s.split(',')` on strings. -/
def splitComma (s : String) : List String :=
  (splitCommaList s.toList).map String.mk

/-- Helper for `pyIntOfString`: read a nonempty all-digit run as a natural. -/
def digitsToNat : List Char → Option Nat
  | [] => none
  | cs =>
    if cs.all Char.isDigit then
      some (cs.foldl (fun acc c => acc * 10 + (c.toNat - 48)) 0)
    else
      none

/-- Python `int(s)` on a string: surrounding whitespace, an optional
sign, then decimal digits; `none` models `ValueError`. -/
def pyIntOfString (s : String) : Option Int :=
  match (pyStrip s).toList with
  | '-' :: rest => (digitsToNat rest).map (fun n => -(n : Int))
  | '+' :: rest => (digitsToNat rest).map (fun n => (n : Int))
  | cs => (digitsToNat cs).map (fun n => (n : Int))

/-- Python `int(value)` on a `Value`; ints pass through, strings parse,
`None` raises (`none`). -/
def pyIntOfValue : Value → Option Int
  | .vInt n => some n
  | .vStr s => pyIntOfString s
  | .vNone => none

/-- Python `s.replace('%', '')`: every `'%'` character is removed. -/
def removePercent (s : String) : String :=
  String.mk (s.toList.filter (fun c => c ≠ '%'))

/-- Python `re.findall(r"\d+", s)` restricted to the first match: the
first maximal run of digits in `s`, if any. -/
def firstDigitRun (cs : List Char) : Option (List Char) :=
  match cs with
  | [] => none
  | c :: rest =>
    if c.isDigit then
      some (c :: rest.takeWhile Char.isDigit)
    else
      firstDigitRun rest

/-- Python `s.zfill (w)`: left-pad with `'0'` to width `w`, keeping a
leading sign in front of the padding. -/
def zfill (w : Nat) (s : String) : String :=
  let cs := s.toList
  if w ≤ cs.length then s
  else
    match cs with
    | '-' :: rest => String.mk ('-' :: List.replicate (w - cs.length) '0' ++ rest)
    | '+' :: rest => String.mk ('+' :: List.replicate (w - cs.length) '0' ++ rest)
    | _ => String.mk (List.replicate (w - cs.length) '0' ++ cs)

/-- `needle` occurs as a contiguous sublist of `hay` (Python `in` on strings). -/
def listHasSub : List Char → List Char → Bool
  | _, [] => true
  | [], _ :: _ => false
  | c :: hs, needle =>
    (needle.isPrefixOf (c :: hs)) || listHasSub hs needle

/-- Python `needle in hay` for strings. -/
def strHasSub (hay needle : String) : Bool :=
  listHasSub hay.toList needle.toList

/-- Python `<` on strings: lexicographic comparison by code points. -/
def strLt (a b : String) : Bool := decide (a < b)

/-- Python `<=` on strings. -/
def strLe (a b : String) : Bool := !(strLt b a)

-- ==================== Column schema (VirtualDataModel.COLUMNS) ====================

/-- Column value kinds from `COLUMNS[i]['type']`. -/
inductive ColType where
  | str
  | status
  | progress
deriving DecidableEq, Repr

/-- `VirtualDataModel.COLUMNS`: the 11-column fixed schema, in order. -/
def columnsSchema : List (String × ColType) :=
  [("websign", .str), ("author", .str), ("title", .str), ("group", .str),
   ("show", .str), ("magazine", .str), ("origin", .str), ("tag", .str),
   ("read_status", .status), ("progress", .progress), ("file_path", .str)]

/-- `VirtualDataModel.COLUMN_INDEX`: name → column index. -/
def columnIndex (name : String) : Option Nat :=
  (columnsSchema.findIdx? (fun c => c.1 = name))

/-- Type of column `col` (`COLUMNS[col]['type']`). -/
def colTypeOf (col : Nat) : ColType :=
  ((columnsSchema.getD col ("", .str))).2

-- ==================== Records and row dictionaries ====================

/-- A stored record: the tuple produced by `_dict_to_tuple` (one `Value`
per schema column). -/
abbrev Record := List Value

/-- A Python row dictionary: ordered association list with unique keys. -/
abbrev RowDict := List (String × Value)

/-- Python `row_data.get(name, "")` (dict keys are unique, so first
match is the match). -/
def dictGet (d : RowDict) (name : String) : Value :=
  match d with
  | [] => .vStr ""
  | p :: rest => if p.1 = name then p.2 else dictGet rest name

/-- Python `d[name] = v`: update in place if the key exists, else append. -/
def dictSet (d : RowDict) (name : String) (v : Value) : RowDict :=
  match d with
  | [] => [(name, v)]
  | p :: rest => if p.1 = name then (name, v) :: rest else p :: dictSet rest name v

/-- Per-column input conversion used by `_dict_to_tuple`: `'progress'`
strings lose every `'%'` and are parsed (`0` on failure), `'status'`
strings are lowercased, everything else is stored as-is. -/
def convertForStorage (ty : ColType) (v : Value) : Value :=
  match ty with
  | .progress =>
    match v with
    | .vStr s => .vInt ((pyIntOfString (removePercent s)).getD 0)
    | .vInt n => .vInt n
    | .vNone => .vInt 0
  | .status =>
    match v with
    | .vStr s => .vStr (sLower s)
    | x => x
  | .str => v

/-- `VirtualDataModel._dict_to_tuple`. -/
def dictToTuple (d : RowDict) : Record :=
  columnsSchema.map (fun c => convertForStorage c.2 (dictGet d c.1))

/-- `VirtualDataModel._tuple_to_dict`: empty dict on length mismatch. -/
def tupleToDict (r : Record) : RowDict :=
  if (List.length (α := Value) r) = columnsSchema.length then
    List.zip (columnsSchema.map Prod.fst) r
  else
    []

-- ==================== Text filter conditions ====================

/-- One `(column, text)` search condition. -/
structure Condition where
  column : String
  text : String
deriving DecidableEq

/-- An abstract regular-expression engine: compiling `pattern` with a
case-sensitivity flag yields a matcher (`search` returning a hit) or
`none` for `re.error`. -/
def RegexEngine := String → Bool → Option (String → Bool)

/-- `VirtualDataModel._check_row_condition`. -/
def checkRowCondition (compile : RegexEngine) (rowData : Record)
    (cond : Condition) (caseSensitive useRegex : Bool) : Bool :=
  match columnIndex cond.column with
  | none => false
  | some colIdx =>
    if colIdx ≥ rowData.length then false
    else
      let cellRaw := pyStr (rowData.getD colIdx .vNone)
      let cellValue := if caseSensitive then cellRaw else sLower cellRaw
      let searchText := if caseSensitive then cond.text else sLower cond.text
      if useRegex then
        match compile searchText caseSensitive with
        | some matcher => matcher cellValue
        | none => strHasSub cellValue searchText
      else
        strHasSub cellValue searchText

/-- Text-filter options held by the model (`_text_filter_options`). -/
structure TextOptions where
  condition1 : Option Condition
  condition2 : Option Condition
  logic : String
  caseSensitive : Bool
  useRegex : Bool

-- ==================== Model state ====================

/-- The mutable state of `VirtualDataModel` (caches, styles and Qt
signal bookkeeping omitted: they carry no record data). -/
structure ModelState where
  rawData : List Record
  visibleRows : List Nat
  statusFilter : Option String
  tagsFilter : Option (List String)
  textFilter : Option TextOptions
  customFilter : Option (Record → Int → Bool)
  filterActive : Bool

/-- Freshly constructed model (`__init__` followed by the initial
`_rebuild_visible_rows`). -/
def initModel : ModelState :=
  { rawData := [], visibleRows := [], statusFilter := none,
    tagsFilter := none, textFilter := none, customFilter := none,
    filterActive := false }

/-- `not self._filters and not self._text_filter_active and not
self._custom_filter_active`: no filter category is active. -/
def noFiltersActive (st : ModelState) : Bool :=
  st.statusFilter.isNone && st.tagsFilter.isNone && st.textFilter.isNone &&
    st.customFilter.isNone

/-- `VirtualDataModel._is_row_in_text_filter`. -/
def isRowInTextFilter (compile : RegexEngine) (st : ModelState)
    (rowData : Record) : Bool :=
  match st.textFilter with
  | none => true
  | some opts =>
    match opts.condition1 with
    | none => true
    | some c1 =>
      let m1 := checkRowCondition compile rowData c1 opts.caseSensitive opts.useRegex
      match opts.condition2 with
      | some c2 =>
        let m2 := checkRowCondition compile rowData c2 opts.caseSensitive opts.useRegex
        if sUpper opts.logic = "AND" then m1 && m2 else m1 || m2
      | none => m1

/-- `VirtualDataModel._should_row_be_visible`. -/
def shouldRowBeVisible (compile : RegexEngine) (st : ModelState)
    (rowData : Record) (rowIndex : Int) : Bool :=
  if noFiltersActive st then
    true
  else
    let statusOk :=
      match st.statusFilter with
      | none => true
      | some status =>
        sLower (pyStr (dictGet (tupleToDict rowData) "read_status")) = status
    let tagsOk :=
      match st.tagsFilter with
      | none => true
      | some filterTags =>
        let rowTags := ((splitComma (pyStr (dictGet (tupleToDict rowData) "tag"))).map
          pyStrip).filter (fun t => t ≠ "")
        rowTags.any (fun t => filterTags.contains t)
    let textOk :=
      if st.textFilter.isSome then isRowInTextFilter compile st rowData else true
    let customOk :=
      match st.customFilter with
      | some f => f rowData rowIndex
      | none => true
    statusOk && tagsOk && textOk && customOk

/-- `VirtualDataModel._rebuild_visible_rows`. -/
def rebuildVisibleRows (compile : RegexEngine) (st : ModelState) : ModelState :=
  if noFiltersActive st then
    { st with visibleRows := List.range st.rawData.length, filterActive := false }
  else
    { st with
      visibleRows := (List.range st.rawData.length).filter
        (fun i => shouldRowBeVisible compile st (st.rawData.getD i []) (Int.ofNat i)),
      filterActive := true }

/-- `VirtualDataModel._apply_filters` (signals dropped). -/
def applyFilters (compile : RegexEngine) (st : ModelState) : ModelState :=
  rebuildVisibleRows compile st

/-- `VirtualDataModel.set_status_filter`. -/
def setStatusFilter (compile : RegexEngine) (st : ModelState) (status : String) :
    ModelState :=
  let st1 :=
    if status = "all" then { st with statusFilter := none }
    else { st with statusFilter := some status }
  applyFilters compile st1

/-- `VirtualDataModel.set_tag_filter`. -/
def setTagFilter (compile : RegexEngine) (st : ModelState) (tags : List String) :
    ModelState :=
  let st1 :=
    if tags = [] then { st with tagsFilter := none }
    else { st with tagsFilter := some tags }
  applyFilters compile st1

/-- `VirtualDataModel.clear_filters` (clears the `_filters` dict only). -/
def clearFilters (compile : RegexEngine) (st : ModelState) : ModelState :=
  applyFilters compile { st with statusFilter := none, tagsFilter := none }

/-- `VirtualDataModel.add_row`.  Both branches of the visibility check
append the new logical index to `_visible_rows`; the check only decides
whether Qt insertion signals are emitted. -/
def addRow (compile : RegexEngine) (st : ModelState) (d : RowDict) : ModelState :=
  let tupleData := dictToTuple d
  let idx := st.rawData.length
  if shouldRowBeVisible compile st tupleData (-1) then
    { st with rawData := st.rawData ++ [tupleData],
              visibleRows := st.visibleRows ++ [idx] }
  else
    { st with rawData := st.rawData ++ [tupleData],
              visibleRows := st.visibleRows ++ [idx] }

/-- `VirtualDataModel.add_rows`: only the indices passing the visibility
check are appended to `_visible_rows`. -/
def addRows (compile : RegexEngine) (st : ModelState) (ds : List RowDict) :
    ModelState :=
  if ds = [] then st
  else
    let newTuples := ds.map dictToTuple
    let base := st.rawData.length
    let newVisible :=
      ((List.range newTuples.length).filter
        (fun i => shouldRowBeVisible compile st (newTuples.getD i []) (-1))).map
        (fun i => base + i)
    { st with rawData := st.rawData ++ newTuples,
              visibleRows := st.visibleRows ++ newVisible }

/-- `VirtualDataModel.remove_row`: deletes the entry from
`_visible_rows` only; `_raw_data` is left untouched and no dead mark is
recorded anywhere. -/
def removeRow (st : ModelState) (row : Nat) : ModelState :=
  if row < st.visibleRows.length then
    let actual := st.visibleRows.getD row 0
    if actual < st.rawData.length then
      { st with visibleRows := st.visibleRows.eraseIdx row }
    else
      st
  else
    st

/-- `VirtualDataModel.get_row_data`. -/
def getRowData (st : ModelState) (visibleRow : Nat) : RowDict :=
  if visibleRow < st.visibleRows.length then
    let actual := st.visibleRows.getD visibleRow 0
    if actual < st.rawData.length then tupleToDict (st.rawData.getD actual [])
    else []
  else []

/-- `VirtualDataModel.update_row` (state part; the boolean result and
`dataChanged` signal are dropped). -/
def updateRow (st : ModelState) (visibleRow : Nat) (d : RowDict) : ModelState :=
  if visibleRow < st.visibleRows.length then
    let actual := st.visibleRows.getD visibleRow 0
    if actual < st.rawData.length then
      { st with rawData := st.rawData.set actual (dictToTuple d) }
    else st
  else st

/-- `VirtualDataModel.setData`: reads the current tuple back into a
dict, overwrites one field, and re-runs `_dict_to_tuple`. -/
def setData (st : ModelState) (row col : Nat) (v : Value) : ModelState :=
  if row < st.visibleRows.length ∧ col < columnsSchema.length then
    let actual := st.visibleRows.getD row 0
    let currentData := tupleToDict (st.rawData.getD actual [])
    let columnName := (columnsSchema.getD col ("", .str)).1
    let newTuple := dictToTuple (dictSet currentData columnName v)
    { st with rawData := st.rawData.set actual newTuple }
  else st

-- ==================== Sort engine (VirtualDataModel.sort) ====================

/-- Keys produced by `sort_key`: ints for `websign` / `progress` /
`status` columns, strings for the rest.  Within one column all keys use
the same constructor, so the cross-constructor cases of `leKey` are
never reached by `sortModel`. -/
inductive SKey where
  | kInt (n : Int)
  | kStr (s : String)
deriving DecidableEq, Repr

/-- Order on sort keys (Python `<=` on the homogeneous key values). -/
def leKey : SKey → SKey → Bool
  | .kInt a, .kInt b => decide (a ≤ b)
  | .kStr a, .kStr b => strLe a b
  | .kInt _, .kStr _ => true
  | .kStr _, .kInt _ => false

/-- `sort_key` from `VirtualDataModel.sort`, applied to a stored tuple. -/
def sortKeyOfTuple (col : Nat) (tupleData : Record) : SKey :=
  if col ≥ tupleData.length then
    if col = 0 then .kInt 0
    else
      match colTypeOf col with
      | .progress => .kInt 0
      | .status => .kInt 0
      | .str => .kStr ""
  else
    let value := tupleData.getD col .vNone
    if col = 0 then
      match value with
      | .vNone => .kInt 0
      | .vStr s =>
        if s = "" then .kInt 0
        else
          match pyIntOfString s with
          | some n => .kInt n
          | none =>
            match firstDigitRun s.toList with
            | some run => .kInt ((digitsToNat run).getD 0 : Nat)
            | none => .kInt 0
      | .vInt n => .kInt n
    else
      match colTypeOf col with
      | .progress =>
        match value with
        | .vNone => .kInt 0
        | .vInt n => .kInt n
        | .vStr s => .kInt ((pyIntOfString s).getD 0)
      | .status =>
        let status := if pyTruthy value then sLower (pyStr value) else "unread"
        if status = "unread" then .kInt 0
        else if status = "reading" then .kInt 1
        else if status = "completed" then .kInt 2
        else .kInt 3
      | .str =>
        match value with
        | .vNone => .kStr ""
        | .vInt n => .kStr (zfill 10 (toString n))
        | .vStr s => .kStr (sLower s)

/-- Stable insertion of `x` in front of the first element it is
`le`-below (strictly): equal-key elements already present stay in
front, matching Python sort stability. -/
def stableInsert (le : α → α → Bool) (x : α) : List α → List α
  | [] => [x]
  | y :: ys => if le x y then x :: y :: ys else y :: stableInsert le x ys

/-- A stable sort by a total `≤`-style comparator.  Python's
`list.sort` is a stable sort; a stable sort's output is determined by
the comparator and the input order, so this insertion sort computes the
same list as CPython's timsort. -/
def stableSort (le : α → α → Bool) (l : List α) : List α :=
  l.foldr (stableInsert le) []

/-- `sort_key(row_idx)`: key of the tuple at raw index `idx`. -/
def sortKeyAt (st : ModelState) (col : Nat) (idx : Nat) : SKey :=
  sortKeyOfTuple col (st.rawData.getD idx [])

/-- `VirtualDataModel.sort`.  With a filter active the raw storage list
itself is permuted and the visible rows rebuilt; with no filter only
`_visible_rows` is reordered.  `list.sort(key=..., reverse=...)` is a
stable sort; `stableSort` with a `≤`-style comparator (flipped, not
negated, for `reverse=True`) matches it. -/
def sortModel (compile : RegexEngine) (st : ModelState) (col : Nat)
    (descending : Bool) : ModelState :=
  if col ≥ columnsSchema.length then st
  else
    let le : Nat → Nat → Bool := fun a b =>
      if descending then leKey (sortKeyAt st col b) (sortKeyAt st col a)
      else leKey (sortKeyAt st col a) (sortKeyAt st col b)
    if st.filterActive then
      let allIndices := stableSort le (List.range st.rawData.length)
      let st1 := { st with rawData := allIndices.map (fun i => st.rawData.getD i []) }
      rebuildVisibleRows compile st1
    else
      { st with visibleRows := stableSort le st.visibleRows }

-- ==================== find_duplicates ====================

/-- Append `i` to the entry of key `k` (creating the entry if absent),
as Python dict-of-list accumulation does. -/
def assocAppendV (m : List (Value × List Nat)) (k : Value) (i : Nat) :
    List (Value × List Nat) :=
  match m with
  | [] => [(k, [i])]
  | p :: rest =>
    if p.1 = k then (p.1, p.2 ++ [i]) :: rest else p :: assocAppendV rest k i

/-- Lookup in a `Value`-keyed association list (unique keys, first match). -/
def assocLookupV (m : List (Value × List Nat)) (k : Value) : Option (List Nat) :=
  match m with
  | [] => none
  | p :: rest => if p.1 = k then some p.2 else assocLookupV rest k

/-- Raw cell value seen by `find_duplicates` at visible position `visPos`. -/
def fdKey (st : ModelState) (colIdx : Nat) (visPos : Nat) : Value :=
  (st.rawData.getD (st.visibleRows.getD visPos 0) []).getD colIdx .vNone

/-- The `actual_row < len(self._raw_data)` guard of `find_duplicates`. -/
def fdGuard (st : ModelState) (visPos : Nat) : Bool :=
  st.visibleRows.getD visPos 0 < st.rawData.length

/-- One `find_duplicates` loop iteration: record visible position `i`
under its cell value when the raw-index guard passes. -/
def fdStep (st : ModelState) (colIdx : Nat) (m : List (Value × List Nat))
    (i : Nat) : List (Value × List Nat) :=
  if fdGuard st i then assocAppendV m (fdKey st colIdx i) i else m

/-- The `value_map` accumulated by `find_duplicates`. -/
def valueMap (st : ModelState) (colIdx : Nat) : List (Value × List Nat) :=
  (List.range st.visibleRows.length).foldl (fdStep st colIdx) []

/-- `VirtualDataModel.find_duplicates`: keep only keys with more than
one visible occurrence. -/
def findDuplicates (st : ModelState) (column : String) :
    List (Value × List Nat) :=
  match columnIndex column with
  | none => []
  | some colIdx => (valueMap st colIdx).filter (fun p => p.2.length > 1)

-- ==================== TableController ====================

/-- Outcome of the duplicate-websign dialog in `add_to_table`. -/
inductive DupDecision where
  | yes
  | no
  | yesToAll
deriving DecidableEq

/-- `TableController` state: the model, the `websign_tracker` and the
set of raw rows given a duplicate-highlight background
(`VirtualDataModel._row_styles`, keyed by actual row). -/
structure CtrlState where
  model : ModelState
  tracker : List (Value × List Nat)
  rowStyles : List Nat

/-- Fresh controller over a fresh model. -/
def initCtrl : CtrlState :=
  { model := initModel, tracker := [], rowStyles := [] }

/-- `VirtualDataModel.set_row_background` (only the fact that the raw
row gained a background is tracked; the color is always light red). -/
def setRowBackground (c : CtrlState) (visibleRow : Nat) : CtrlState :=
  if visibleRow < c.model.visibleRows.length then
    let actual := c.model.visibleRows.getD visibleRow 0
    if c.rowStyles.contains actual then c
    else { c with rowStyles := c.rowStyles ++ [actual] }
  else c

/-- `TableController.highlight_duplicate_rows`. -/
def highlightDuplicateRows (c : CtrlState) (websign : Value) : CtrlState :=
  match assocLookupV c.tracker websign with
  | none => c
  | some rows =>
    if rows.length > 1 then rows.foldl setRowBackground c else c

/-- `TableController.add_to_table`, fed an already-processed row dict.
`decision` is the answer the duplicate dialog would return; it is only
consulted when the websign is nonempty and already tracked. -/
def addToTable (compile : RegexEngine) (c : CtrlState) (d : RowDict)
    (decision : DupDecision) : CtrlState :=
  let websign := dictGet d "websign"
  if pyTruthy websign ∧ (assocLookupV c.tracker websign).isSome ∧
      decision = .no then
    c
  else
    let model1 := addRow compile c.model d
    let newVisibleRow := model1.visibleRows.length - 1
    let c1 := { c with model := model1 }
    if pyTruthy websign then
      let tracker2 := assocAppendV c1.tracker websign newVisibleRow
      let c2 := { c1 with tracker := tracker2 }
      if ((assocLookupV tracker2 websign).getD []).length > 1 then
        highlightDuplicateRows c2 websign
      else c2
    else c1

/-- `TableController.rebuild_websign_tracker` (the `find_duplicates`
path taken by the actual model). -/
def rebuildWebsignTracker (c : CtrlState) : CtrlState :=
  let dups := findDuplicates c.model "websign"
  dups.foldl
    (fun acc p =>
      let acc1 := { acc with tracker := acc.tracker ++ [p] }
      if p.2.length > 1 then highlightDuplicateRows acc1 p.1 else acc1)
    { c with tracker := [] }

/-- The progress → read_status rule as written in
`TableController.update_progress`. -/
def statusRuleOfProgress (p : Int) : String :=
  if p = 0 then "unread" else if p = 100 then "completed" else "reading"

/-- `TableController.update_progress` for one row: read the row dict,
clamp the progress, derive the status in the controller, write back via
`update_row`. -/
def updateProgress (c : CtrlState) (row : Nat) (progress : Int) : CtrlState :=
  let rowData := getRowData c.model row
  if rowData = [] then c
  else
    let progressValue := max 0 (min 100 progress)
    let d1 := dictSet rowData "progress" (.vInt progressValue)
    let d2 := dictSet d1 "read_status" (.vStr (statusRuleOfProgress progressValue))
    { c with model := updateRow c.model row d2 }

/-- `TableController.update_progress` over a row list. -/
def updateProgressRows (c : CtrlState) (rows : List Nat) (progress : Int) :
    CtrlState :=
  rows.foldl (fun acc r => updateProgress acc r progress) c

-- ==================== Render window calculator (VirtualGridView) ====================

/-- `VirtualGridView._calculate_columns_per_row`. -/
def calculateColumnsPerRow (viewportWidth gridWidth : Nat) : Nat :=
  if viewportWidth = 0 ∨ gridWidth = 0 then 1
  else max 1 (viewportWidth / gridWidth)

/-- The numbers computed by `VirtualGridView.update_visible_items`:
columns per row, grid-row range, base model-row range (already clamped
to `[0, rowCount-1]`) and the buffered range. -/
structure WindowCalc where
  columnsPerRow : Nat
  startGridY : Nat
  endGridY : Nat
  startRowBase : Nat
  endRowBase : Nat
  startRowBuf : Nat
  endRowBuf : Nat
deriving DecidableEq, Repr

/-- The window computation of `VirtualGridView.update_visible_items`
(`rowCount > 0`; integer division is Python floor division on the
nonnegative quantities involved). -/
def updateVisibleItemsWindow (viewportWidth gridWidth gridHeight scrollY
    viewportHeight rowCount : Nat) : WindowCalc :=
  let cols := calculateColumnsPerRow viewportWidth gridWidth
  let startGridY := scrollY / gridHeight
  let endGridY := (scrollY + viewportHeight) / gridHeight
  let startBase := startGridY * cols
  let endBase := min (rowCount - 1) ((endGridY + 1) * cols - 1)
  let bufferRows := 2
  let startBuf := startBase - bufferRows * cols
  let endBuf := min (rowCount - 1) (endBase + bufferRows * cols)
  { columnsPerRow := cols, startGridY := startGridY, endGridY := endGridY,
    startRowBase := startBase, endRowBase := endBase,
    startRowBuf := startBuf, endRowBuf := endBuf }

/-- `_update_grid_metrics`: grid cell width = card width + horizontal
spacing (140 + 15). -/
def gridCellWidth : Nat := 140 + 15

/-- `_update_grid_metrics`: grid cell height = card height + vertical
spacing (250 + 15). -/
def gridCellHeight : Nat := 250 + 15

-- ==================== Widget pool (WidgetPool) ====================

/-- `WidgetPool` state.  Widgets are identified by creation ids; the
Python free list's top (its last element) is the head of `available`.
`visibleRowsP` is the Python set `_visible_rows`, kept as a
duplicate-free list (Python set iteration order is unspecified; all the
operations below are order-insensitive in effect).  Performance
counters carry no behaviour and are omitted. -/
structure PoolState where
  available : List Nat
  inUse : List (Nat × Nat)
  visibleRowsP : List Nat
  maxSize : Nat
  nextId : Nat
deriving DecidableEq

/-- `self._in_use_widgets.get(row)` (dict keys unique, first match). -/
def lookupWidget (inUse : List (Nat × Nat)) (row : Nat) : Option Nat :=
  match inUse with
  | [] => none
  | p :: rest => if p.1 = row then some p.2 else lookupWidget rest row

/-- `WidgetPool.__init__`: pre-creates `min 10 maxSize` widgets. -/
def initPool (maxSize : Nat) : PoolState :=
  let pre := min 10 maxSize
  { available := (List.range pre).reverse, inUse := [], visibleRowsP := [],
    maxSize := maxSize, nextId := pre }

/-- Python `set.add`. -/
def setAdd (l : List Nat) (x : Nat) : List Nat :=
  if l.contains x then l else l ++ [x]

/-- Python `set.discard`. -/
def setDiscard (l : List Nat) (x : Nat) : List Nat :=
  l.filter (fun y => y ≠ x)

/-- `WidgetPool.acquire_widget` (the returned widget id, and the new
state; content updates and signal rewiring do not change the pool
bookkeeping). -/
def acquireWidget (st : PoolState) (row : Nat) : Option Nat × PoolState :=
  match lookupWidget st.inUse row with
  | some w => (some w, st)
  | none =>
    match st.available with
    | w :: rest =>
      let st1 := { st with
        available := rest
        inUse := st.inUse ++ [(row, w)]
        visibleRowsP := setAdd st.visibleRowsP row }
      (some w, st1)
    | [] =>
      if st.inUse.length < st.maxSize then
        let st1 := { st with
          nextId := st.nextId + 1
          inUse := st.inUse ++ [(row, st.nextId)]
          visibleRowsP := setAdd st.visibleRowsP row }
        (some st.nextId, st1)
      else
        (none, st)

/-- `WidgetPool.release_widget`. -/
def releaseWidget (st : PoolState) (row : Nat) : PoolState :=
  match lookupWidget st.inUse row with
  | some w =>
    { st with inUse := st.inUse.filter (fun p => p.1 ≠ row),
              visibleRowsP := setDiscard st.visibleRowsP row,
              available := w :: st.available }
  | none => st

/-- Membership of `x` in `set(range(startRow, endRow + 1))`. -/
def inRange (startRow endRow x : Nat) : Bool :=
  startRow ≤ x && x ≤ endRow

/-- `WidgetPool.update_visible_range`: compute the set difference up
front, release those rows (Python iterates the set in unspecified
order; releases of distinct rows commute, so the stored order is as
good as any), then overwrite `_visible_rows` with the new range.  No
widget is acquired here. -/
def updateVisibleRange (st : PoolState) (startRow endRow : Nat) : PoolState :=
  let toRelease := st.visibleRowsP.filter (fun r => !inRange startRow endRow r)
  let st1 := toRelease.foldl releaseWidget st
  { st1 with visibleRowsP := List.range' startRow (endRow + 1 - startRow) }

/-- Rows currently bound to a widget. -/
def inUseKeys (st : PoolState) : List Nat :=
  st.inUse.map Prod.fst

-- ==================== Spec-side definitions for the claims ====================

/-- A regex engine whose every compilation fails (`re.error` on every
pattern); used to exercise the fallback paths. -/
def nullRegex : RegexEngine := fun _ _ => none

/-- Input row with read status `reading`. -/
def rowReading : RowDict := [("websign", .vStr "1"), ("read_status", .vStr "reading")]

/-- Input row with read status `unread`. -/
def rowUnread : RowDict := [("websign", .vStr "2"), ("read_status", .vStr "unread")]

/-- Input row carrying only a websign. -/
def rowWeb (w : String) : RowDict := [("websign", .vStr w)]

/-- Input row with a websign and read status `unread`. -/
def rowWebUnread (w : String) : RowDict :=
  [("websign", .vStr w), ("read_status", .vStr "unread")]

-- ==================== C1 / C2 ====================

/-- C1.  The spec claims `add_row` performs an append-time visibility
check: a record rejected by the active filter must not have its logical
index added to the visible-index sequence, keeping the visible sequence
a permutation of the filter-passing live indices.  The code computes
`_should_row_be_visible` but appends the logical index in both
branches (the check only gates signal emission): with the status filter
`reading` active, adding an `unread` record still pushes logical index
1 into `_visible_rows` (`[0, 1]`), although the row fails the filter
and a rebuild of the visible rows from the same state yields `[0]`. -/
theorem C1_add_row_append_time_check_bug :
    shouldRowBeVisible nullRegex
        (addRow nullRegex (setStatusFilter nullRegex initModel "reading") rowReading)
        (dictToTuple rowUnread) (-1) = false ∧
    (addRow nullRegex
        (addRow nullRegex (setStatusFilter nullRegex initModel "reading") rowReading)
        rowUnread).visibleRows = [0, 1] ∧
    (rebuildVisibleRows nullRegex
        (addRow nullRegex
          (addRow nullRegex (setStatusFilter nullRegex initModel "reading") rowReading)
          rowUnread)).visibleRows = [0] := by
  refine ⟨by decide, by decide, by decide⟩

/-- C2.  The spec claims `remove_row` marks the logical record dead and
that the removed record never reappears in the visible-index sequence
under any later rebuild.  The code only deletes the entry from
`_visible_rows`; no dead mark exists and `_should_row_be_visible` has
no dead check (despite the comment in `remove_row` promising one), so
the very next rebuild (here: `clear_filters`) resurrects the removed
row: visible rows go `[0, 1]` → (remove 0) `[1]` → (rebuild) `[0, 1]`.
Raw storage is indeed left uncompacted. -/
theorem C2_remove_row_resurrection_bug :
    (removeRow (addRow nullRegex (addRow nullRegex initModel rowReading) rowUnread)
        0).visibleRows = [1] ∧
    (removeRow (addRow nullRegex (addRow nullRegex initModel rowReading) rowUnread)
        0).rawData =
      (addRow nullRegex (addRow nullRegex initModel rowReading) rowUnread).rawData ∧
    (clearFilters nullRegex
        (removeRow (addRow nullRegex (addRow nullRegex initModel rowReading) rowUnread)
          0)).visibleRows = [0, 1] := by
  refine ⟨by decide, by decide, by decide⟩

-- ==================== C9 ====================

/-- C9.  An invalid regular-expression pattern (a pattern the engine
fails to compile, `re.error`) makes `_check_row_condition` silently
fall back to plain substring matching: the result in regex mode equals
the result of the plain substring mode on the same inputs, so the row
is never failed because of the bad pattern and no error reaches the
caller. -/
theorem C9_invalid_regex_fallback (compile : RegexEngine) (rowData : Record)
    (cond : Condition) (caseSensitive : Bool)
    (h : compile (if caseSensitive then cond.text else sLower cond.text)
        caseSensitive = none) :
    checkRowCondition compile rowData cond caseSensitive true =
      checkRowCondition compile rowData cond caseSensitive false := by
  unfold checkRowCondition
  cases hc : columnIndex cond.column with
  | none => rfl
  | some colIdx =>
    by_cases hlen : colIdx ≥ rowData.length
    · simp [hlen]
    · simp only [if_neg hlen]
      rw [h]
      simp

/-- Witness for C9: with an engine rejecting every pattern, matching a
condition in regex mode coincides with plain substring matching. -/
theorem C9_invalid_regex_fallback_witness :
    checkRowCondition nullRegex (dictToTuple [("title", .vStr "A love[ Story")])
        ⟨"title", "Love["⟩ false true =
      checkRowCondition nullRegex (dictToTuple [("title", .vStr "A love[ Story")])
        ⟨"title", "Love["⟩ false false :=
  C9_invalid_regex_fallback nullRegex (dictToTuple [("title", .vStr "A love[ Story")])
    ⟨"title", "Love["⟩ false rfl

-- ==================== C6 ====================

/-- C6 counterexample.  For `W=600, Tw=155, H=530, Th=265, Y=310` the
spec example claims `end_grid_row = 2` and base range `[3, 8]`, but the
code's `end_grid_y = (Y + H) // Th = 840 // 265 = 3`, giving a base
range of `[3, 11]` (with 100 visible rows). -/
theorem C6_counterexample :
    (updateVisibleItemsWindow 600 gridCellWidth gridCellHeight 310 530 100).endGridY
        = 3 ∧
    (updateVisibleItemsWindow 600 gridCellWidth gridCellHeight 310 530 100).endRowBase
        = 11 ∧
    ¬((updateVisibleItemsWindow 600 gridCellWidth gridCellHeight 310 530 100).endGridY
          = 2 ∧
      (updateVisibleItemsWindow 600 gridCellWidth gridCellHeight 310 530 100).endRowBase
          = 8) := by
  refine ⟨by decide, by decide, by decide⟩

/-- C6 amended.  For viewport width 600, tile 155×265, viewport height
530 and scroll offset 310, the render-window calculation yields
`columns_per_row = 3`, `start_grid_row = 1`, `end_grid_row = 3` and a
base visible-index range `[3, 11]` before buffer expansion (for any
visible-row count of at least 12). -/
theorem C6_amended_window_example (n : Nat) (h : 12 ≤ n) :
    (updateVisibleItemsWindow 600 gridCellWidth gridCellHeight 310 530 n).columnsPerRow
        = 3 ∧
    (updateVisibleItemsWindow 600 gridCellWidth gridCellHeight 310 530 n).startGridY
        = 1 ∧
    (updateVisibleItemsWindow 600 gridCellWidth gridCellHeight 310 530 n).endGridY
        = 3 ∧
    (updateVisibleItemsWindow 600 gridCellWidth gridCellHeight 310 530 n).startRowBase
        = 3 ∧
    (updateVisibleItemsWindow 600 gridCellWidth gridCellHeight 310 530 n).endRowBase
        = 11 := by
  refine ⟨rfl, rfl, rfl, rfl, ?_⟩
  show min (n - 1) 11 = 11
  omega

/-- Witness for C6 amended at a row count of 100. -/
theorem C6_amended_window_example_witness :
    (updateVisibleItemsWindow 600 gridCellWidth gridCellHeight 310 530 100).columnsPerRow
        = 3 ∧
    (updateVisibleItemsWindow 600 gridCellWidth gridCellHeight 310 530 100).startGridY
        = 1 ∧
    (updateVisibleItemsWindow 600 gridCellWidth gridCellHeight 310 530 100).endGridY
        = 3 ∧
    (updateVisibleItemsWindow 600 gridCellWidth gridCellHeight 310 530 100).startRowBase
        = 3 ∧
    (updateVisibleItemsWindow 600 gridCellWidth gridCellHeight 310 530 100).endRowBase
        = 11 :=
  C6_amended_window_example 100 (by decide)

-- ==================== C10 ====================

/-- Normalization `_dict_to_tuple` applies to the `read_status` input:
strings are lowercased, non-strings pass through unchanged. -/
def statusNormal (v : Value) : Value :=
  match v with
  | .vStr s => .vStr (sLower s)
  | x => x

/-- The amended description of the `progress` conversion: every `'%'`
character is removed from string inputs (not only a trailing one),
unparsable strings and `None` become `0`, ints pass through. -/
def progressAmended (v : Value) : Int :=
  match v with
  | .vStr s => (pyIntOfString (removePercent s)).getD 0
  | .vInt n => n
  | .vNone => 0

/-- The claim's literal description of the `progress` conversion: only
a `'%'` suffix is stripped before parsing. -/
def stripPercentSuffixClaim (s : String) : String :=
  if s.toList.getLast? = some '%' then String.mk s.toList.dropLast else s

/-- Progress conversion as the claim words it (strip a `'%'` suffix,
parse, `0` on failure). -/
def progressClaimSpec (v : Value) : Int :=
  match v with
  | .vStr s => (pyIntOfString (stripPercentSuffixClaim s)).getD 0
  | .vInt n => n
  | .vNone => 0

/-- `v` is a string equal to its own lowercasing. -/
def isLowerStrValue (v : Value) : Bool :=
  match v with
  | .vStr s => sLower s = s
  | _ => false

/-- The four mutation endpoints the claim ranges over. -/
inductive ModelOp where
  | opAddRow (d : RowDict)
  | opAddRows (ds : List RowDict)
  | opUpdateRow (row : Nat) (d : RowDict)
  | opSetData (row col : Nat) (v : Value)

/-- Run one mutation on the model. -/
def execOp (compile : RegexEngine) (st : ModelState) : ModelOp → ModelState
  | .opAddRow d => addRow compile st d
  | .opAddRows ds => addRows compile st ds
  | .opUpdateRow row d => updateRow st row d
  | .opSetData row col v => setData st row col v

/-- Run a sequence of mutations on the model. -/
def execOps (compile : RegexEngine) (ops : List ModelOp) (st : ModelState) :
    ModelState :=
  ops.foldl (execOp compile) st

/-- `add_row` always appends exactly `_dict_to_tuple row_data` to raw
storage (both branches of its visibility check do). -/
theorem addRow_rawData (compile : RegexEngine) (st : ModelState) (d : RowDict) :
    (addRow compile st d).rawData = st.rawData ++ [dictToTuple d] := by
  unfold addRow
  dsimp only
  split <;> rfl

/-- Every record in raw storage is the image of some dict under
`_dict_to_tuple`; preserved by each mutation endpoint. -/
theorem execOp_stored (compile : RegexEngine) (st : ModelState) (op : ModelOp)
    (hst : ∀ r ∈ st.rawData, ∃ d, r = dictToTuple d) :
    ∀ r ∈ (execOp compile st op).rawData, ∃ d, r = dictToTuple d := by
  intro r hr
  cases op with
  | opAddRow d =>
    rw [execOp, addRow_rawData] at hr
    rcases List.mem_append.mp hr with h | h
    · exact hst r h
    · exact ⟨d, List.mem_singleton.mp h⟩
  | opAddRows ds =>
    rw [execOp] at hr
    unfold addRows at hr
    dsimp only at hr
    split at hr
    · exact hst r hr
    · simp only at hr
      rcases List.mem_append.mp hr with h | h
      · exact hst r h
      · rcases List.mem_map.mp h with ⟨d, _, hd⟩
        exact ⟨d, hd.symm⟩
  | opUpdateRow row d =>
    rw [execOp] at hr
    unfold updateRow at hr
    dsimp only at hr
    split at hr
    · split at hr
      · rcases List.mem_or_eq_of_mem_set hr with h | h
        · exact hst r h
        · exact ⟨d, h⟩
      · exact hst r hr
    · exact hst r hr
  | opSetData row col v =>
    rw [execOp] at hr
    unfold setData at hr
    dsimp only at hr
    split at hr
    · rcases List.mem_or_eq_of_mem_set hr with h | h
      · exact hst r h
      · exact ⟨_, h⟩
    · exact hst r hr

/-- The stored-record invariant holds after any op sequence from the
fresh model. -/
theorem execOps_stored (compile : RegexEngine) (ops : List ModelOp) :
    ∀ st, (∀ r ∈ st.rawData, ∃ d, r = dictToTuple d) →
      ∀ r ∈ (execOps compile ops st).rawData, ∃ d, r = dictToTuple d := by
  induction ops with
  | nil => intro st hst; exact hst
  | cons op ops ih =>
    intro st hst
    exact ih (execOp compile st op) (execOp_stored compile st op hst)

/-- A key absent from a dict reads back as the empty-string default. -/
theorem dictGet_of_not_mem (d : RowDict) (name : String)
    (h : ∀ p ∈ d, p.1 ≠ name) : dictGet d name = .vStr "" := by
  induction d with
  | nil => rfl
  | cons p rest ih =>
    unfold dictGet
    rw [if_neg (h p (List.mem_cons_self p rest))]
    exact ih (fun q hq => h q (List.mem_cons_of_mem p hq))

/-- `_dict_to_tuple` output explicitly, for any dict. -/
theorem dictToTuple_fields (d : RowDict) :
    dictToTuple d =
      [dictGet d "websign", dictGet d "author", dictGet d "title",
       dictGet d "group", dictGet d "show", dictGet d "magazine",
       dictGet d "origin", dictGet d "tag",
       statusNormal (dictGet d "read_status"),
       .vInt (progressAmended (dictGet d "progress")),
       dictGet d "file_path"] := by
  show [convertForStorage .str (dictGet d "websign"),
        convertForStorage .str (dictGet d "author"),
        convertForStorage .str (dictGet d "title"),
        convertForStorage .str (dictGet d "group"),
        convertForStorage .str (dictGet d "show"),
        convertForStorage .str (dictGet d "magazine"),
        convertForStorage .str (dictGet d "origin"),
        convertForStorage .str (dictGet d "tag"),
        convertForStorage .status (dictGet d "read_status"),
        convertForStorage .progress (dictGet d "progress"),
        convertForStorage .str (dictGet d "file_path")] = _
  cases h8 : dictGet d "read_status" <;> cases h9 : dictGet d "progress" <;> rfl

/-- C10 counterexample.  The claim describes the progress conversion as
stripping a `'%'` suffix (so `"5%0"`, having no such suffix, would be
unparsable and become `0`) and promises `read_status` is always stored
as a lowercase string.  The code removes every `'%'` character, storing
`50` for `"5%0"`, and stores a non-string `read_status` input (here
`7`) unchanged. -/
theorem C10_counterexample :
    (dictToTuple [("progress", .vStr "5%0")]).getD 9 .vNone = .vInt 50 ∧
    progressClaimSpec (.vStr "5%0") = 0 ∧
    (50 : Int) ≠ 0 ∧
    isLowerStrValue ((dictToTuple [("read_status", .vInt 7)]).getD 8 .vNone)
      = false := by
  refine ⟨by decide, by decide, by decide, by decide⟩

/-- C10 amended.  After any sequence of `add_row`, `add_rows`,
`update_row` and `setData` calls, every stored record is an 11-field
tuple produced by `_dict_to_tuple`, whose `progress` field is an int
obtained by removing every `'%'` character from string inputs (missing
fields default to the empty string and hence `0`; unparsable values
become `0`) and whose `read_status` field is the lowercased input when
the input is a string (non-string inputs are stored unchanged). -/
theorem C10_amended_storage_normalization (compile : RegexEngine)
    (ops : List ModelOp) (r : Record)
    (hr : r ∈ (execOps compile ops initModel).rawData) (d : RowDict) :
    (r.length = 11 ∧ ∃ n : Int, r.getD 9 .vNone = .vInt n) ∧
    (dictToTuple d).length = 11 ∧
    (dictToTuple d).getD 9 .vNone = .vInt (progressAmended (dictGet d "progress")) ∧
    (dictToTuple d).getD 8 .vNone = statusNormal (dictGet d "read_status") ∧
    ((∀ p ∈ d, p.1 ≠ "progress") →
      (dictToTuple d).getD 9 .vNone = .vInt 0) := by
  have base : ∀ q ∈ initModel.rawData, ∃ d0, q = dictToTuple d0 := by
    intro q hq
    exact absurd hq (List.not_mem_nil q)
  obtain ⟨d0, hd0⟩ := execOps_stored compile ops initModel base r hr
  refine ⟨⟨?_, ?_⟩, ?_, ?_, ?_, ?_⟩
  · rw [hd0, dictToTuple_fields]
    rfl
  · refine ⟨progressAmended (dictGet d0 "progress"), ?_⟩
    rw [hd0, dictToTuple_fields]
    rfl
  · rw [dictToTuple_fields]
    rfl
  · rw [dictToTuple_fields]
    rfl
  · rw [dictToTuple_fields]
    rfl
  · intro hmiss
    rw [dictToTuple_fields, dictGet_of_not_mem d "progress" hmiss]
    rfl

/-- Witness for C10 amended: one `add_row` of a row whose progress
comes as the string `"45%"`. -/
theorem C10_amended_storage_normalization_witness :
    ((dictToTuple [("progress", .vStr "45%")]).length = 11 ∧
      ∃ n : Int, (dictToTuple [("progress", .vStr "45%")]).getD 9 .vNone = .vInt n) ∧
    (dictToTuple [("title", .vStr "T"), ("read_status", .vStr "UnReAd")]).length
        = 11 ∧
    (dictToTuple [("title", .vStr "T"), ("read_status", .vStr "UnReAd")]).getD 9
        .vNone =
      .vInt (progressAmended
        (dictGet [("title", .vStr "T"), ("read_status", .vStr "UnReAd")] "progress")) ∧
    (dictToTuple [("title", .vStr "T"), ("read_status", .vStr "UnReAd")]).getD 8
        .vNone =
      statusNormal
        (dictGet [("title", .vStr "T"), ("read_status", .vStr "UnReAd")] "read_status") ∧
    ((∀ p ∈ [(("title" : String), Value.vStr "T"),
        (("read_status" : String), Value.vStr "UnReAd")], p.1 ≠ "progress") →
      (dictToTuple [("title", .vStr "T"), ("read_status", .vStr "UnReAd")]).getD 9
          .vNone = .vInt 0) :=
  C10_amended_storage_normalization nullRegex
    [.opAddRow [("progress", .vStr "45%")]]
    (dictToTuple [("progress", .vStr "45%")])
    (by decide)
    [("title", .vStr "T"), ("read_status", .vStr "UnReAd")]


-- ==================== C4 ====================

/-- A record of length 11 is an explicit 11-element list. -/
theorem exists_eleven (r : Record) (h : r.length = 11) :
    ∃ v0 v1 v2 v3 v4 v5 v6 v7 v8 v9 v10 : Value,
      r = [v0, v1, v2, v3, v4, v5, v6, v7, v8, v9, v10] := by
  rcases r with _ | ⟨v0, r⟩; · simp at h
  rcases r with _ | ⟨v1, r⟩; · simp at h
  rcases r with _ | ⟨v2, r⟩; · simp at h
  rcases r with _ | ⟨v3, r⟩; · simp at h
  rcases r with _ | ⟨v4, r⟩; · simp at h
  rcases r with _ | ⟨v5, r⟩; · simp at h
  rcases r with _ | ⟨v6, r⟩; · simp at h
  rcases r with _ | ⟨v7, r⟩; · simp at h
  rcases r with _ | ⟨v8, r⟩; · simp at h
  rcases r with _ | ⟨v9, r⟩; · simp at h
  rcases r with _ | ⟨v10, r⟩; · simp at h
  rcases r with _ | ⟨v11, r⟩
  · exact ⟨v0, v1, v2, v3, v4, v5, v6, v7, v8, v9, v10, rfl⟩
  · exfalso
    simp [List.length_cons] at h

/-- `getD` after `set` at the same in-range index yields the new value. -/
theorem getD_set_self (l : List α) (n : Nat) (a d : α) (h : n < l.length) :
    (l.set n a).getD n d = a := by
  simp [List.getD, List.getElem?_set_self, h]

/-- An index whose `getD []` has length 11 is in range. -/
theorem lt_length_of_getD_eleven (l : List Record) (n : Nat)
    (h : (l.getD n []).length = 11) : n < l.length := by
  by_contra hn
  rw [List.getD_eq_default] at h
  · simp at h
  · omega

/-- The status strings produced by the progress rule are already
lowercase. -/
theorem statusRule_lower (q : Int) :
    sLower (statusRuleOfProgress q) = statusRuleOfProgress q := by
  unfold statusRuleOfProgress
  split_ifs <;> decide

/-- The dict written back by `update_progress` for an 11-field row. -/
def progressWriteDict (v0 v1 v2 v3 v4 v5 v6 v7 v8 v9 v10 : Value) (pv : Int) :
    RowDict :=
  dictSet
    (dictSet (tupleToDict [v0, v1, v2, v3, v4, v5, v6, v7, v8, v9, v10])
      "progress" (.vInt pv))
    "read_status" (.vStr (statusRuleOfProgress pv))

/-- Stored tuple after `update_progress` writes its dict back. -/
theorem progressWriteDict_tuple (v0 v1 v2 v3 v4 v5 v6 v7 v8 v9 v10 : Value)
    (pv : Int) :
    dictToTuple (progressWriteDict v0 v1 v2 v3 v4 v5 v6 v7 v8 v9 v10 pv) =
      [v0, v1, v2, v3, v4, v5, v6, v7,
       .vStr (sLower (statusRuleOfProgress pv)), .vInt pv, v10] := rfl

/-- C4 counterexample.  Setting `progress` to 50 through the store's
`setData` leaves `read_status` as `unread`: the store does not
recompute the derived field (the claimed rule gives
`statusRuleOfProgress 50 = "reading"`). -/
theorem C4_counterexample :
    ((setData (addRow nullRegex initModel
          [("read_status", .vStr "unread"), ("progress", .vInt 0)]) 0 9
        (.vInt 50)).rawData.getD 0 []).getD 9 .vNone = .vInt 50 ∧
    ((setData (addRow nullRegex initModel
          [("read_status", .vStr "unread"), ("progress", .vInt 0)]) 0 9
        (.vInt 50)).rawData.getD 0 []).getD 8 .vNone = .vStr "unread" ∧
    statusRuleOfProgress 50 = "reading" ∧
    ("unread" : String) ≠ "reading" := by
  refine ⟨by decide, by decide, by decide, by decide⟩

/-- C4 amended.  The progress → read_status recomputation lives in the
caller, `TableController.update_progress`: that method clamps the
progress and writes both the clamped progress and the derived status
(`statusRuleOfProgress`) through `update_row`.  The store's own
single-field update path (`setData` on the progress column) stores the
progress but leaves `read_status` exactly as it was, up to the
lowercasing `_dict_to_tuple` re-applies to string values
(`statusNormal`). -/
theorem C4_amended_derived_status
    (c : CtrlState) (row : Nat) (p : Int)
    (h1 : row < c.model.visibleRows.length)
    (h3 : (c.model.rawData.getD (c.model.visibleRows.getD row 0) []).length = 11)
    (st : ModelState) (row2 : Nat) (v : Value)
    (h4 : row2 < st.visibleRows.length)
    (h5 : (st.rawData.getD (st.visibleRows.getD row2 0) []).length = 11) :
    (((updateProgress c row p).model.rawData.getD
          (c.model.visibleRows.getD row 0) []).getD 8 .vNone =
        .vStr (statusRuleOfProgress (max 0 (min 100 p))) ∧
      ((updateProgress c row p).model.rawData.getD
          (c.model.visibleRows.getD row 0) []).getD 9 .vNone =
        .vInt (max 0 (min 100 p))) ∧
    ((setData st row2 9 v).rawData.getD (st.visibleRows.getD row2 0) []).getD 8
        .vNone =
      statusNormal ((st.rawData.getD (st.visibleRows.getD row2 0) []).getD 8
        .vNone) := by
  have h2 : c.model.visibleRows.getD row 0 < c.model.rawData.length :=
    lt_length_of_getD_eleven _ _ h3
  have h5a : st.visibleRows.getD row2 0 < st.rawData.length :=
    lt_length_of_getD_eleven _ _ h5
  obtain ⟨v0, v1, v2, v3, v4, v5, v6, v7, v8, v9, v10, hrec⟩ :=
    exists_eleven _ h3
  obtain ⟨w0, w1, w2, w3, w4, w5, w6, w7, w8, w9, w10, hrec2⟩ :=
    exists_eleven _ h5
  constructor
  · -- update_progress: status derived by the controller, then stored
    have hget : getRowData c.model row =
        tupleToDict [v0, v1, v2, v3, v4, v5, v6, v7, v8, v9, v10] := by
      unfold getRowData
      dsimp only
      rw [if_pos h1, if_pos h2, hrec]
    have hne : tupleToDict [v0, v1, v2, v3, v4, v5, v6, v7, v8, v9, v10] ≠ [] :=
      List.cons_ne_nil _ _
    have hup : (updateProgress c row p).model =
        updateRow c.model row
          (progressWriteDict v0 v1 v2 v3 v4 v5 v6 v7 v8 v9 v10
            (max 0 (min 100 p))) := by
      unfold updateProgress
      dsimp only
      rw [hget, if_neg hne]
      rfl
    have hraw : (updateRow c.model row
        (progressWriteDict v0 v1 v2 v3 v4 v5 v6 v7 v8 v9 v10
          (max 0 (min 100 p)))).rawData =
        c.model.rawData.set (c.model.visibleRows.getD row 0)
          (dictToTuple (progressWriteDict v0 v1 v2 v3 v4 v5 v6 v7 v8 v9 v10
            (max 0 (min 100 p)))) := by
      unfold updateRow
      dsimp only
      rw [if_pos h1, if_pos h2]
    rw [hup, hraw, getD_set_self _ _ _ _ h2, progressWriteDict_tuple]
    exact ⟨by rw [statusRule_lower]; rfl, rfl⟩
  · -- setData on progress: read_status merely renormalized
    have hset : (setData st row2 9 v).rawData =
        st.rawData.set (st.visibleRows.getD row2 0)
          (dictToTuple (dictSet
            (tupleToDict (st.rawData.getD (st.visibleRows.getD row2 0) []))
            "progress" v)) := by
      unfold setData
      dsimp only
      rw [if_pos ⟨h4, by decide⟩]
      rfl
    rw [hset, getD_set_self _ _ _ _ h5a, hrec2]
    show convertForStorage .status w8 = statusNormal w8
    cases w8 <;> rfl

/-- One-row controller state used to witness C4. -/
def c4Ctrl : CtrlState :=
  { model := addRow nullRegex initModel
      [("read_status", .vStr "unread"), ("progress", .vInt 0)],
    tracker := [], rowStyles := [] }

/-- Witness for C4 amended: a one-row model with `unread`/0; progress
is set to 50 through the controller and separately through the store. -/
theorem C4_amended_derived_status_witness :
    (((updateProgress c4Ctrl 0 50).model.rawData.getD
          (c4Ctrl.model.visibleRows.getD 0 0) []).getD 8 .vNone =
        .vStr (statusRuleOfProgress (max 0 (min 100 50))) ∧
      ((updateProgress c4Ctrl 0 50).model.rawData.getD
          (c4Ctrl.model.visibleRows.getD 0 0) []).getD 9 .vNone =
        .vInt (max 0 (min 100 50))) ∧
    ((setData c4Ctrl.model 0 9 (.vInt 50)).rawData.getD
        (c4Ctrl.model.visibleRows.getD 0 0) []).getD 8 .vNone =
      statusNormal ((c4Ctrl.model.rawData.getD
        (c4Ctrl.model.visibleRows.getD 0 0) []).getD 8 .vNone) :=
  C4_amended_derived_status c4Ctrl 0 50 (by decide) (by decide)
    c4Ctrl.model 0 (.vInt 50) (by decide) (by decide)

-- ==================== C5 ====================

/-- C5 counterexample.  With a status filter active (`unread`, matching
both rows) and websigns `"1"`, `"2"`, a descending sort permutes
`_raw_data` itself: logical index 0 holds the `"1"` record before the
sort and the `"2"` record after it, so the logical index no longer
refers to the same record. -/
theorem C5_counterexample :
    (setStatusFilter nullRegex
        (addRow nullRegex (addRow nullRegex initModel (rowWebUnread "1"))
          (rowWebUnread "2")) "unread").filterActive = true ∧
    (setStatusFilter nullRegex
        (addRow nullRegex (addRow nullRegex initModel (rowWebUnread "1"))
          (rowWebUnread "2")) "unread").rawData.getD 0 [] =
      dictToTuple (rowWebUnread "1") ∧
    (sortModel nullRegex
        (setStatusFilter nullRegex
          (addRow nullRegex (addRow nullRegex initModel (rowWebUnread "1"))
            (rowWebUnread "2")) "unread") 0 true).rawData.getD 0 [] =
      dictToTuple (rowWebUnread "2") ∧
    dictToTuple (rowWebUnread "1") ≠ dictToTuple (rowWebUnread "2") := by
  refine ⟨by decide, by decide, by decide, by decide⟩

/-- Rebuilding visible rows never touches raw storage. -/
theorem rebuildVisibleRows_rawData (compile : RegexEngine) (st : ModelState) :
    (rebuildVisibleRows compile st).rawData = st.rawData := by
  unfold rebuildVisibleRows
  split <;> rfl

/-- C5 amended.  Logical (raw-storage) indices are stable under every
filter change and under sorting while no filter is active: those
operations leave `_raw_data` untouched, so each logical index keeps
referring to the same record.  (Sorting with a filter active is the
exception shown by the counterexample: it permutes raw storage.) -/
theorem C5_amended_logical_index_stability (compile : RegexEngine)
    (st : ModelState) (col : Nat) (descending : Bool) (status : String)
    (tags : List String) (h : st.filterActive = false) :
    (sortModel compile st col descending).rawData = st.rawData ∧
    (setStatusFilter compile st status).rawData = st.rawData ∧
    (setTagFilter compile st tags).rawData = st.rawData ∧
    (clearFilters compile st).rawData = st.rawData ∧
    (applyFilters compile st).rawData = st.rawData := by
  refine ⟨?_, ?_, ?_, ?_, ?_⟩
  · unfold sortModel
    split
    · rfl
    · dsimp only
      rw [h]
      simp only [Bool.false_eq_true, if_false]
  · unfold setStatusFilter
    dsimp only
    split <;> exact rebuildVisibleRows_rawData compile _
  · unfold setTagFilter
    dsimp only
    split <;> exact rebuildVisibleRows_rawData compile _
  · exact rebuildVisibleRows_rawData compile _
  · exact rebuildVisibleRows_rawData compile _

/-- Two-row unfiltered model used to witness C5. -/
def c5Model : ModelState :=
  addRow nullRegex (addRow nullRegex initModel (rowWebUnread "2")) (rowWebUnread "1")

/-- Witness for C5 amended on a concrete two-row unfiltered model. -/
theorem C5_amended_logical_index_stability_witness :
    (sortModel nullRegex c5Model 0 true).rawData = c5Model.rawData ∧
    (setStatusFilter nullRegex c5Model "reading").rawData = c5Model.rawData ∧
    (setTagFilter nullRegex c5Model ["t"]).rawData = c5Model.rawData ∧
    (clearFilters nullRegex c5Model).rawData = c5Model.rawData ∧
    (applyFilters nullRegex c5Model).rawData = c5Model.rawData :=
  C5_amended_logical_index_stability nullRegex c5Model 0 true "reading" ["t"] rfl


-- ==================== C7 ====================

/-- `lookupWidget` misses exactly when no entry carries the row. -/
theorem lookupWidget_eq_none (l : List (Nat × Nat)) (row : Nat) :
    lookupWidget l row = none ↔ ∀ p ∈ l, p.1 ≠ row := by
  induction l with
  | nil => simp [lookupWidget]
  | cons p rest ih =>
    unfold lookupWidget
    by_cases hp : p.1 = row
    · simp [hp]
    · simp [hp, ih]

/-- Releasing a row keeps exactly the entries with other keys. -/
theorem releaseWidget_inUse (st : PoolState) (row : Nat) :
    (releaseWidget st row).inUse = st.inUse.filter (fun p => p.1 ≠ row) := by
  unfold releaseWidget
  cases hl : lookupWidget st.inUse row with
  | none =>
    have hall := (lookupWidget_eq_none st.inUse row).mp hl
    symm
    apply List.filter_eq_self.mpr
    intro p hp
    simpa using hall p hp
  | some w => rfl

/-- Folding releases over a row list filters all those keys out. -/
theorem foldRelease_inUse (l : List Nat) :
    ∀ st : PoolState, (l.foldl releaseWidget st).inUse =
      st.inUse.filter (fun p => decide (p.1 ∉ l)) := by
  induction l with
  | nil =>
    intro st
    simp
  | cons a l ih =>
    intro st
    rw [List.foldl_cons, ih, releaseWidget_inUse, List.filter_filter]
    congr 1
    funext p
    by_cases hpa : p.1 = a <;> by_cases hpl : p.1 ∈ l <;>
      simp [hpa, hpl]

/-- The in-use map after `update_visible_range`. -/
theorem updateVisibleRange_inUse (st : PoolState) (s e : Nat) :
    (updateVisibleRange st s e).inUse =
      st.inUse.filter
        (fun p =>
          decide (p.1 ∉ st.visibleRowsP.filter (fun r => !inRange s e r))) := by
  unfold updateVisibleRange
  dsimp only
  rw [foldRelease_inUse]

/-- C7 counterexample.  Starting from a fresh pool, binding row 5 and
then calling `update_visible_range 0 1` releases row 5 (it is outside
the range) but acquires nothing: the in-use map ends empty, so index 0,
inside the range and not yet bound, is still unbound afterwards —
`update_visible_range` only releases; acquisition happens elsewhere. -/
theorem C7_counterexample :
    lookupWidget ((acquireWidget (initPool 50) 5).2).inUse 5 = some 9 ∧
    (updateVisibleRange ((acquireWidget (initPool 50) 5).2) 0 1).inUse = [] ∧
    lookupWidget
      (updateVisibleRange ((acquireWidget (initPool 50) 5).2) 0 1).inUse 0 =
      none := by
  refine ⟨by decide, by decide, by decide⟩

/-- C7 amended.  Provided every bound row is tracked in the
`_visible_rows` set (an invariant of `acquire`/`release`),
`update_visible_range start end` releases exactly the bound rows
outside `[start, end]` — a row stays bound iff it was bound and lies
inside the range — acquires nothing new, and is idempotent: calling it
again with the same range changes nothing at all. -/
theorem C7_amended_update_window (st : PoolState) (s e : Nat)
    (h : ∀ r ∈ inUseKeys st, r ∈ st.visibleRowsP) :
    (∀ r, r ∈ inUseKeys (updateVisibleRange st s e) ↔
      r ∈ inUseKeys st ∧ s ≤ r ∧ r ≤ e) ∧
    updateVisibleRange (updateVisibleRange st s e) s e =
      updateVisibleRange st s e := by
  constructor
  · intro r
    unfold inUseKeys
    rw [updateVisibleRange_inUse]
    simp only [List.mem_map, List.mem_filter, decide_eq_true_eq]
    constructor
    · rintro ⟨p, ⟨hpmem, hpnot⟩, rfl⟩
      have hvis : p.1 ∈ st.visibleRowsP :=
        h p.1 (List.mem_map.mpr ⟨p, hpmem, rfl⟩)
      refine ⟨⟨p, hpmem, rfl⟩, ?_⟩
      by_contra hout
      apply hpnot
      refine ⟨hvis, ?_⟩
      simp only [inRange, Bool.not_eq_true', Bool.and_eq_false_iff,
        decide_eq_false_iff_not]
      omega
    · rintro ⟨⟨p, hpmem, rfl⟩, hs, he⟩
      refine ⟨p, ⟨hpmem, ?_⟩, rfl⟩
      intro hmem
      obtain ⟨-, hb⟩ := hmem
      simp only [inRange, Bool.not_eq_true', Bool.and_eq_false_iff,
        decide_eq_false_iff_not] at hb
      omega
  · have hnil : (updateVisibleRange st s e).visibleRowsP.filter
        (fun r => !inRange s e r) = [] := by
      show (List.range' s (e + 1 - s)).filter (fun r => !inRange s e r) = []
      rw [List.filter_eq_nil_iff]
      intro r hr
      have hmem := List.mem_range'_1.mp hr
      simp only [inRange, Bool.not_eq_true', Bool.and_eq_false_iff,
        decide_eq_false_iff_not]
      omega
    have key : updateVisibleRange (updateVisibleRange st s e) s e =
        { List.foldl releaseWidget (updateVisibleRange st s e)
            ((updateVisibleRange st s e).visibleRowsP.filter
              (fun r => !inRange s e r)) with
          visibleRowsP := List.range' s (e + 1 - s) } := rfl
    rw [key, hnil]
    rfl

/-- Pool with one bound row used to witness C7. -/
def c7Pool : PoolState := (acquireWidget (initPool 50) 5).2

/-- Witness for C7 amended at the one-bound-row pool and range [0, 1]. -/
theorem C7_amended_update_window_witness :
    (∀ r, r ∈ inUseKeys (updateVisibleRange c7Pool 0 1) ↔
      r ∈ inUseKeys c7Pool ∧ 0 ≤ r ∧ r ≤ 1) ∧
    updateVisibleRange (updateVisibleRange c7Pool 0 1) 0 1 =
      updateVisibleRange c7Pool 0 1 :=
  C7_amended_update_window c7Pool 0 1 (by decide)

-- ==================== C3 ====================

/-- The visible positions a `find_duplicates` scan of `l` would file
under value `v`. -/
def occOf (st : ModelState) (colIdx : Nat) (l : List Nat) (v : Value) :
    List Nat :=
  l.filter (fun i => fdGuard st i && decide (fdKey st colIdx i = v))

/-- Visible positions currently holding websign value `v` (in scan
order). -/
def websignOccurrences (st : ModelState) (v : Value) : List Nat :=
  occOf st 0 (List.range st.visibleRows.length) v

/-- Looking up after an assoc-append: the appended key gains `i` at the
end of its (possibly fresh) entry; other keys are untouched. -/
theorem assocLookupV_appendV (m : List (Value × List Nat)) (k : Value) (i : Nat)
    (v : Value) :
    assocLookupV (assocAppendV m k i) v =
      if k = v then some ((assocLookupV m v).getD [] ++ [i])
      else assocLookupV m v := by
  induction m with
  | nil =>
    by_cases hkv : k = v <;> simp [assocAppendV, assocLookupV, hkv]
  | cons p rest ih =>
    unfold assocAppendV
    by_cases hpk : p.1 = k
    · simp only [if_pos hpk]
      by_cases hpv : p.1 = v
      · have hkv : k = v := hpk ▸ hpv
        simp [assocLookupV, hpv, hkv]
      · have hkv : ¬k = v := fun hc => hpv (by rw [hpk, hc])
        simp [assocLookupV, hpv, hkv]
    · simp only [if_neg hpk]
      by_cases hpv : p.1 = v
      · have hkv : ¬k = v := fun hc => hpk (by rw [hc, hpv])
        simp [assocLookupV, hpv, hkv]
      · simp [assocLookupV, hpv, ih]

/-- Value of the folded `value_map` at `v`: the accumulator's entry
extended by every scanned position filed under `v`. -/
theorem foldFd_getD (st : ModelState) (colIdx : Nat) (l : List Nat) :
    ∀ m : List (Value × List Nat), ∀ v : Value,
      (assocLookupV (l.foldl (fdStep st colIdx) m) v).getD [] =
        (assocLookupV m v).getD [] ++ occOf st colIdx l v := by
  induction l with
  | nil =>
    intro m v
    simp [occOf]
  | cons i l ih =>
    intro m v
    rw [List.foldl_cons]
    rw [ih]
    unfold fdStep occOf
    by_cases hg : fdGuard st i
    · simp only [if_pos hg]
      rw [assocLookupV_appendV]
      by_cases hkv : fdKey st colIdx i = v
      · simp [hkv, hg, List.filter_cons, occOf]
      · simp [hkv, hg, List.filter_cons, occOf]
    · simp [hg, List.filter_cons, occOf]

/-- The folded `value_map` misses `v` exactly when the accumulator does
and no scanned position files under `v`. -/
theorem foldFd_eq_none (st : ModelState) (colIdx : Nat) (l : List Nat) :
    ∀ m : List (Value × List Nat), ∀ v : Value,
      (assocLookupV (l.foldl (fdStep st colIdx) m) v = none ↔
        assocLookupV m v = none ∧ occOf st colIdx l v = []) := by
  induction l with
  | nil =>
    intro m v
    simp [occOf]
  | cons i l ih =>
    intro m v
    rw [List.foldl_cons, ih]
    unfold fdStep occOf
    by_cases hg : fdGuard st i
    · simp only [if_pos hg]
      rw [assocLookupV_appendV]
      by_cases hkv : fdKey st colIdx i = v
      · simp [hkv, hg, List.filter_cons, occOf]
      · simp [hkv, hg, List.filter_cons, occOf]
    · simp [hg, List.filter_cons, occOf]

/-- Keys after an assoc-append: existing keys, plus `k`. -/
theorem mem_keys_appendV (m : List (Value × List Nat)) (k : Value) (i : Nat)
    (v : Value) :
    v ∈ (assocAppendV m k i).map Prod.fst ↔ v ∈ m.map Prod.fst ∨ v = k := by
  induction m with
  | nil => simp [assocAppendV]
  | cons p rest ih =>
    unfold assocAppendV
    by_cases hpk : p.1 = k
    · simp only [if_pos hpk]
      constructor
      · rintro hm
        rcases List.mem_cons.mp hm with hm | hm
        · exact Or.inl (List.mem_cons.mpr (Or.inl hm))
        · exact Or.inl (List.mem_cons.mpr (Or.inr hm))
      · rintro (hm | hm)
        · exact hm
        · subst hm
          exact List.mem_cons.mpr (Or.inl hpk.symm)
    · simp only [if_neg hpk]
      simp only [List.map_cons, List.mem_cons, ih]
      tauto

/-- Assoc-append preserves key distinctness. -/
theorem nodup_keys_appendV (m : List (Value × List Nat)) (k : Value) (i : Nat)
    (h : (m.map Prod.fst).Nodup) :
    ((assocAppendV m k i).map Prod.fst).Nodup := by
  induction m with
  | nil => simp [assocAppendV]
  | cons p rest ih =>
    unfold assocAppendV
    rw [List.map_cons, List.nodup_cons] at h
    by_cases hpk : p.1 = k
    · simp only [if_pos hpk, List.map_cons, List.nodup_cons]
      exact h
    · simp only [if_neg hpk, List.map_cons, List.nodup_cons]
      refine ⟨?_, ih h.2⟩
      intro hc
      rcases (mem_keys_appendV rest k i p.1).mp hc with hc | hc
      · exact h.1 hc
      · exact hpk hc

/-- The folded `value_map` keeps keys distinct. -/
theorem nodup_keys_foldFd (st : ModelState) (colIdx : Nat) (l : List Nat) :
    ∀ m : List (Value × List Nat), (m.map Prod.fst).Nodup →
      (((l.foldl (fdStep st colIdx) m).map Prod.fst)).Nodup := by
  induction l with
  | nil => intro m hm; exact hm
  | cons i l ih =>
    intro m hm
    rw [List.foldl_cons]
    apply ih
    unfold fdStep
    by_cases hg : fdGuard st i
    · simpa [hg] using nodup_keys_appendV m (fdKey st colIdx i) i hm
    · simpa [hg] using hm

/-- With distinct keys, entry membership coincides with lookup. -/
theorem mem_iff_lookup (m : List (Value × List Nat)) (v : Value) (lst : List Nat)
    (h : (m.map Prod.fst).Nodup) :
    ((v, lst) ∈ m ↔ assocLookupV m v = some lst) := by
  induction m with
  | nil => simp [assocLookupV]
  | cons p rest ih =>
    rw [List.map_cons, List.nodup_cons] at h
    unfold assocLookupV
    by_cases hpv : p.1 = v
    · simp only [if_pos hpv, Option.some_inj]
      constructor
      · rintro hm
        rcases List.mem_cons.mp hm with hm | hm
        · rw [← hm]
        · exfalso
          apply h.1
          rw [hpv]
          exact List.mem_map.mpr ⟨(v, lst), hm, rfl⟩
      · intro hm
        apply List.mem_cons.mpr
        left
        rw [← hpv, ← hm]
    · simp only [if_neg hpv]
      rw [← ih h.2]
      constructor
      · intro hm
        rcases List.mem_cons.mp hm with hm | hm
        · exact absurd (congrArg Prod.fst hm.symm) hpv
        · exact hm
      · exact fun hm => List.mem_cons.mpr (Or.inr hm)

/-- The spec's running example: three `add_to_table` calls with
websigns `"100"`, `"101"`, `"100"` (the duplicate confirmed with Yes). -/
def c3Example : CtrlState :=
  addToTable nullRegex
    (addToTable nullRegex
      (addToTable nullRegex initCtrl (rowWeb "100") .yes)
      (rowWeb "101") .yes)
    (rowWeb "100") .yes

/-- C3 counterexample.  The claim says only keys shared by at least two
live records appear in the duplicate index, and that the
`"100","101","100"` example yields exactly `{"100": [0, 2]}`.  On the
incremental insert path the code stores every nonempty websign: after
the example the tracker also holds the singleton entry
`"101" ↦ [1]`, although exactly one live record carries `"101"`. -/
theorem C3_counterexample :
    assocLookupV c3Example.tracker (.vStr "101") = some [1] ∧
    (c3Example.model.rawData.filter
      (fun r => decide (r.getD 0 .vNone = .vStr "101"))).length = 1 ∧
    c3Example.tracker ≠ [(.vStr "100", [0, 2])] := by
  refine ⟨by decide, by decide, by decide⟩

/-- C3 amended.  On the incremental insert path the tracker stores
every nonempty websign key, singletons included: the
`"100","101","100"` example yields
`{"100": [0, 2], "101": [1]}`, and only the rows of keys with at least
two entries are flagged (rows 0 and 2 highlighted; row 1 unflagged).
The claimed iff-invariant — key present iff at least two visible rows
share the websign — holds for the index produced by the full rebuild
(`find_duplicates`, used by `rebuild_websign_tracker`). -/
theorem C3_amended_duplicate_index (st : ModelState) (v : Value) :
    (c3Example.tracker = [(.vStr "100", [0, 2]), (.vStr "101", [1])] ∧
      c3Example.rowStyles = [0, 2] ∧
      1 ∉ c3Example.rowStyles) ∧
    (v ∈ (findDuplicates st "websign").map Prod.fst ↔
      2 ≤ (websignOccurrences st v).length) := by
  refine ⟨⟨by decide, by decide, by decide⟩, ?_⟩
  have hcol : findDuplicates st "websign" =
      (valueMap st 0).filter (fun p => p.2.length > 1) := rfl
  have hnd : ((valueMap st 0).map Prod.fst).Nodup :=
    nodup_keys_foldFd st 0 (List.range st.visibleRows.length) [] (by simp)
  have hgetD : (assocLookupV (valueMap st 0) v).getD [] =
      websignOccurrences st v := by
    unfold valueMap websignOccurrences
    rw [foldFd_getD]
    simp [assocLookupV]
  rw [hcol]
  constructor
  · intro hv
    rcases List.mem_map.mp hv with ⟨p, hpmem, hpv⟩
    have hfil := List.mem_filter.mp hpmem
    have hlen : p.2.length > 1 := by simpa using hfil.2
    have hpm : (v, p.2) ∈ valueMap st 0 := by
      have : p = (v, p.2) := by
        rw [← hpv]
      rw [← this]
      exact hfil.1
    have hlook : assocLookupV (valueMap st 0) v = some p.2 :=
      (mem_iff_lookup (valueMap st 0) v p.2 hnd).mp hpm
    have hocc : p.2 = websignOccurrences st v := by
      rw [← hgetD, hlook]
      rfl
    rw [← hocc]
    omega
  · intro h2
    cases hl : assocLookupV (valueMap st 0) v with
    | none =>
      exfalso
      have hocc : websignOccurrences st v = [] := by
        unfold valueMap at hl
        exact ((foldFd_eq_none st 0 (List.range st.visibleRows.length) [] v).mp
          hl).2
      rw [hocc] at h2
      simp at h2
    | some lst =>
      have hlst : lst = websignOccurrences st v := by
        rw [← hgetD, hl]
        rfl
      have hmem : (v, lst) ∈ valueMap st 0 :=
        (mem_iff_lookup (valueMap st 0) v lst hnd).mpr hl
      apply List.mem_map.mpr
      refine ⟨(v, lst), List.mem_filter.mpr ⟨hmem, ?_⟩, rfl⟩
      simp only [decide_eq_true_eq]
      rw [hlst]
      omega

-- ==================== C8 ====================

/-- Websign key extraction as both the claim and the code describe it:
parse as an integer, fall back to the first run of digits, default 0. -/
def websignKeySpec (v : Value) : SKey :=
  match pyIntOfValue v with
  | some n => .kInt n
  | none =>
    match firstDigitRun (pyStr v).toList with
    | some run => .kInt ((digitsToNat run).getD 0 : Nat)
    | none => .kInt 0

/-- Status ordinals exactly as the claim words them: `unread`/`reading`/
`completed` ↦ 0/1/2, anything else last (3). -/
def statusKeyClaim (v : Value) : SKey :=
  if sLower (pyStr v) = "unread" then .kInt 0
  else if sLower (pyStr v) = "reading" then .kInt 1
  else if sLower (pyStr v) = "completed" then .kInt 2
  else .kInt 3

/-- Status key as the code computes it: falsy values (`None`, `""`,
`0`) are treated as `unread` before the ordinal mapping. -/
def statusKeyAmended (v : Value) : SKey :=
  if pyTruthy v then statusKeyClaim v else .kInt 0

/-- Progress key as the code computes it: integer parse, default 0. -/
def progressKeyAmended (v : Value) : SKey :=
  .kInt ((pyIntOfValue v).getD 0)

/-- "Other column" key as the claim words it: numeric-looking values
are zero-padded to width 10, everything else compares lowercased. -/
def strKeyClaim (v : Value) : SKey :=
  if pyStr v ≠ "" ∧ (pyStr v).toList.all Char.isDigit then
    .kStr (zfill 10 (pyStr v))
  else
    .kStr (sLower (pyStr v))

/-- "Other column" key as the code computes it: only values of numeric
type are zero-padded; strings (numeric-looking or not) are lowercased
without padding, `None` becomes the empty string. -/
def strKeyAmended (v : Value) : SKey :=
  match v with
  | .vNone => .kStr ""
  | .vInt n => .kStr (zfill 10 (toString n))
  | .vStr s => .kStr (sLower s)

/-- The sort-key extraction exactly as the claim describes it. -/
def claimSortKey (col : Nat) (v : Value) : SKey :=
  if col = 0 then websignKeySpec v
  else
    match colTypeOf col with
    | .status => statusKeyClaim v
    | _ => strKeyClaim v

/-- The sort-key extraction as amended to match the code. -/
def amendedSortKey (col : Nat) (v : Value) : SKey :=
  if col = 0 then websignKeySpec v
  else
    match colTypeOf col with
    | .status => statusKeyAmended v
    | .progress => progressKeyAmended v
    | .str => strKeyAmended v

/-- C8 counterexample.  Three stored cells where the code's `sort_key`
differs from the claim's description: the numeric-looking title string
`"7"` is not zero-padded (key `"7"`, not `"0000000007"`); the progress
column sorts on parsed ints (key `50`, not the padded string
`"0000000050"`); and the falsy status value `0` sorts as `unread`
(ordinal 0), not as an unknown value (ordinal 3). -/
theorem C8_counterexample :
    sortKeyOfTuple 2 (dictToTuple [("title", .vStr "7")]) = .kStr "7" ∧
    claimSortKey 2 ((dictToTuple [("title", .vStr "7")]).getD 2 .vNone) =
      .kStr "0000000007" ∧
    SKey.kStr "7" ≠ SKey.kStr "0000000007" ∧
    sortKeyOfTuple 9 (dictToTuple [("progress", .vStr "50")]) = .kInt 50 ∧
    claimSortKey 9 ((dictToTuple [("progress", .vStr "50")]).getD 9 .vNone) =
      .kStr "0000000050" ∧
    sortKeyOfTuple 8 (dictToTuple [("read_status", .vInt 0)]) = .kInt 0 ∧
    claimSortKey 8 ((dictToTuple [("read_status", .vInt 0)]).getD 8 .vNone) =
      .kInt 3 ∧
    SKey.kInt 0 ≠ SKey.kInt 3 := by
  refine ⟨by decide, by decide, by decide, by decide, by decide, by decide,
    by decide, by decide⟩

/-- C8 amended.  For every in-range column, `sort_key` is exactly:
`websign` parsed as int with first-digit-run fallback and default 0;
`progress` parsed as int with default 0; `read_status` mapped to
ordinals 0/1/2 with falsy values treated as `unread` and unknown values
last (3); every other column lowercased without padding for strings,
zero-padded decimal of width 10 for values of numeric type, and the
empty string for `None`. -/
theorem C8_amended_sort_keys (col : Nat) (t : Record) (h : col < t.length) :
    sortKeyOfTuple col t = amendedSortKey col (t.getD col .vNone) := by
  unfold sortKeyOfTuple amendedSortKey
  rw [if_neg (by omega : ¬col ≥ t.length)]
  dsimp only
  by_cases h0 : col = 0
  · simp only [if_pos h0]
    rcases hv : t.getD col .vNone with s | n
    · by_cases hs : s = ""
      · subst hs
        decide
      · simp only [if_neg hs, websignKeySpec, pyIntOfValue, pyStr]
    · rfl
    · decide
  · simp only [if_neg h0]
    cases hty : colTypeOf col with
    | progress =>
      rcases t.getD col .vNone with s | n
      · rfl
      · rfl
      · rfl
    | status =>
      by_cases htr : pyTruthy (t.getD col .vNone)
      · simp only [statusKeyAmended, if_pos htr, statusKeyClaim, htr, if_true]
      · simp only [statusKeyAmended, if_neg htr, htr, Bool.false_eq_true,
          if_false]
        decide
    | str =>
      rcases t.getD col .vNone with s | n
      · rfl
      · rfl
      · rfl

/-- Witness for C8 amended at the title column of a one-field row. -/
theorem C8_amended_sort_keys_witness :
    sortKeyOfTuple 2 (dictToTuple [("title", .vStr "Abc")]) =
      amendedSortKey 2 ((dictToTuple [("title", .vStr "Abc")]).getD 2 .vNone) :=
  C8_amended_sort_keys 2 (dictToTuple [("title", .vStr "Abc")]) (by decide)
